import Mathlib

/-!
Shallow embedding of the hub-kms capability code: the zcap capability
document model, the BDD delegation helper `delegateCapability`, the
capability-invocation header (`setCapabilityHeader` plus the base64url
encoding applied at its call site), the compression pair
`CompressZCAP`/`DecompressZCAP`, the parallel create-key aggregator of
`makeParallelCreateKeyReqs`, and the `metrics` package singleton.

Machine-level details abstracted: cryptographic signing is represented by
an explicit signature-bytes parameter (the code obtains it from an external
ed25519 signature suite), fresh capability identifiers and proof timestamps
are likewise explicit parameters (the code obtains them from a uuid
generator and the wall clock), and byte streams are lists of naturals.
-/

/-- The action name the delegation helper grants; the BDD constants file
binds `actionExportKey` to the `export-key` action of the protocol. -/
def actionExportKey : String := "export-key"

/-- Invocation target of a capability: the protected resource id and type. -/
structure InvocationTarget where
  id : String
  type : String
  deriving DecidableEq

/-- One proof entry of a capability document, carrying the delegation
chain snapshot embedded at signing time.  `capabilityChain` is `none` when
the proof carries no chain entry (or one that is not a JSON array), which
is how the Go type assertion `c.Proof[0]["capabilityChain"].([]interface{})`
can fail. -/
structure Proof where
  verificationMethod : String
  created : String
  proofPurpose : String
  capabilityChain : Option (List String)
  signatureValue : List Nat
  deriving DecidableEq

/-- The zcapld capability document, with the fields the claims concern. -/
structure Capability where
  id : String
  invoker : String
  parent : String
  invocationTarget : InvocationTarget
  allowedActions : List String
  proof : List Proof
  deriving DecidableEq

/-- The chain extraction `delegateCapability` performs: read
`capabilityChain` out of the first proof entry, treating a missing or
ill-typed entry as the empty chain. -/
def capabilityChainOf (c : Capability) : List String :=
  match c.proof with
  | [] => []
  | p :: _ => p.capabilityChain.getD []

/-- The capability document minted inside `delegateCapability` by
`zcapld.NewCapability`: invoker as requested, parent and target taken from
the parent capability, allowed actions fixed to `export-key`, and a single
fresh proof embedding `parent chain ++ [parent.id]`.  Returns `none` when
the parent has no proof entry (the Go code indexes `c.Proof[0]` and would
panic there). -/
def delegatedCapability (c : Capability) (verificationMethod invoker newID created : String)
    (sig : List Nat) : Option Capability :=
  match c.proof with
  | [] => none
  | p0 :: _ =>
    some { id := newID
           invoker := invoker
           parent := c.id
           invocationTarget := c.invocationTarget
           allowedActions := [actionExportKey]
           proof := [{ verificationMethod := verificationMethod
                       created := created
                       proofPurpose := "capabilityDelegation"
                       capabilityChain := some (p0.capabilityChain.getD [] ++ [c.id])
                       signatureValue := sig }] }

/-! ## Capability compression

`CompressZCAP` lives in `pkg/zcapld` of the repository, which is not among
the provided sources; only its caller `delegateCapability` is.  The
encoding below is therefore modelled from the spec rather than translated
from source. -/

/-- Length-prefixed encoding of one string as its character codes. -/
def encodeString (s : String) : List Nat :=
  s.toList.length :: s.toList.map Char.toNat

/-- Parse one length-prefixed string off the front of a stream. -/
def decodeString : List Nat → Option (String × List Nat)
  | [] => none
  | n :: rest =>
    if n ≤ rest.length then
      some (String.mk ((rest.take n).map Char.ofNat), rest.drop n)
    else none

/-- Concatenated encodings of a list of strings (payload, no count). -/
def encodeStrings : List String → List Nat
  | [] => []
  | s :: rest => encodeString s ++ encodeStrings rest

/-- Count-prefixed encoding of a list of strings. -/
def encodeStringList (ss : List String) : List Nat :=
  ss.length :: encodeStrings ss

/-- Parse a given number of strings off the front of a stream. -/
def decodeStrings : Nat → List Nat → Option (List String × List Nat)
  | 0, l => some ([], l)
  | n + 1, l =>
    match decodeString l with
    | none => none
    | some (s, l1) =>
      match decodeStrings n l1 with
      | none => none
      | some (ss, l2) => some (s :: ss, l2)

/-- Parse a count-prefixed list of strings. -/
def decodeStringList : List Nat → Option (List String × List Nat)
  | [] => none
  | n :: rest => decodeStrings n rest

/-- Length-prefixed verbatim encoding of raw bytes (used for the proof
signature bytes, which must round-trip bit-exactly). -/
def encodeNatList (l : List Nat) : List Nat :=
  l.length :: l

/-- Parse one length-prefixed run of raw bytes. -/
def decodeNatList : List Nat → Option (List Nat × List Nat)
  | [] => none
  | n :: rest =>
    if n ≤ rest.length then some (rest.take n, rest.drop n) else none

/-- Tagged encoding of an optional chain: `0` for absent, `1` then the
string list for present. -/
def encodeChain : Option (List String) → List Nat
  | none => [0]
  | some ss => 1 :: encodeStringList ss

/-- Parse a tagged optional chain. -/
def decodeChain : List Nat → Option (Option (List String) × List Nat)
  | 0 :: rest => some (none, rest)
  | 1 :: rest =>
    match decodeStringList rest with
    | none => none
    | some (ss, l1) => some (some ss, l1)
  | _ => none

/-- Field-by-field encoding of one proof entry. -/
def encodeProof (p : Proof) : List Nat :=
  encodeString p.verificationMethod ++ encodeString p.created ++
    encodeString p.proofPurpose ++ encodeChain p.capabilityChain ++
    encodeNatList p.signatureValue

/-- Parse one proof entry. -/
def decodeProof (l : List Nat) : Option (Proof × List Nat) :=
  match decodeString l with
  | none => none
  | some (vm, l1) =>
    match decodeString l1 with
    | none => none
    | some (cr, l2) =>
      match decodeString l2 with
      | none => none
      | some (pp, l3) =>
        match decodeChain l3 with
        | none => none
        | some (ch, l4) =>
          match decodeNatList l4 with
          | none => none
          | some (sv, l5) =>
            some ({ verificationMethod := vm, created := cr, proofPurpose := pp,
                    capabilityChain := ch, signatureValue := sv }, l5)

/-- Concatenated encodings of a list of proofs (payload, no count). -/
def encodeProofs : List Proof → List Nat
  | [] => []
  | p :: rest => encodeProof p ++ encodeProofs rest

/-- Parse a given number of proof entries off the front of a stream. -/
def decodeProofs : Nat → List Nat → Option (List Proof × List Nat)
  | 0, l => some ([], l)
  | n + 1, l =>
    match decodeProof l with
    | none => none
    | some (p, l1) =>
      match decodeProofs n l1 with
      | none => none
      | some (ps, l2) => some (p :: ps, l2)

/-- Modelled from the spec: `CompressZCAP` (repository package
`pkg/zcapld`, source not provided) serializes a capability to a compact
transport encoding carrying every field of the data model, with the proof
signature bytes preserved bit-exactly. -/
def CompressZCAP (c : Capability) : List Nat :=
  encodeString c.id ++ encodeString c.invoker ++ encodeString c.parent ++
    encodeString c.invocationTarget.id ++ encodeString c.invocationTarget.type ++
    encodeStringList c.allowedActions ++ (c.proof.length :: encodeProofs c.proof)

/-- Modelled from the spec: the inverse transport decoding; malformed or
truncated input yields `none` (a `DecompressionError`). -/
def DecompressZCAP (l : List Nat) : Option Capability :=
  match decodeString l with
  | none => none
  | some (i, l1) =>
    match decodeString l1 with
    | none => none
    | some (inv, l2) =>
      match decodeString l2 with
      | none => none
      | some (par, l3) =>
        match decodeString l3 with
        | none => none
        | some (tid, l4) =>
          match decodeString l4 with
          | none => none
          | some (tty, l5) =>
            match decodeStringList l5 with
            | none => none
            | some (acts, l6) =>
              match l6 with
              | [] => none
              | n :: l7 =>
                match decodeProofs n l7 with
                | none => none
                | some (ps, l8) =>
                  match l8 with
                  | [] =>
                    some { id := i, invoker := inv, parent := par,
                           invocationTarget := { id := tid, type := tty },
                           allowedActions := acts, proof := ps }
                  | _ :: _ => none

/-- The full `delegateCapability` helper: mint the delegated capability and
return its compressed transport bytes. -/
def delegateCapability (c : Capability) (verificationMethod invoker newID created : String)
    (sig : List Nat) : Option (List Nat) :=
  (delegatedCapability c verificationMethod invoker newID created sig).map CompressZCAP

/-! ## Capability-invocation header

`getPubKeyOfRecipient` base64url-encodes the compressed capability
(`base64.URLEncoding.EncodeToString`) and hands it to
`setCapabilityHeader`, which formats the header value with
`fmt.Sprintf` and then computes the HTTP message signature (the signature
itself is external crypto and not part of the header-shape claims). -/

/-- The URL-safe base64 alphabet of Go's `base64.URLEncoding`. -/
def base64URLAlphabet : String :=
  "ABCDEFGHIJKLMNOPQRSTUVWXYZabcdefghijklmnopqrstuvwxyz0123456789-_"

/-- Character at a given index of the base64url alphabet. -/
def b64Char (i : Nat) : Char :=
  base64URLAlphabet.toList.getD i ' '

/-- Standard base64 chunking: three input bytes become four characters,
with `=` padding for one- and two-byte tails. -/
def base64URLEncodeChunks : List Nat → List Char
  | [] => []
  | [b1] => [b64Char (b1 / 4), b64Char (b1 % 4 * 16), '=', '=']
  | [b1, b2] => [b64Char (b1 / 4), b64Char (b1 % 4 * 16 + b2 / 16), b64Char (b2 % 16 * 4), '=']
  | b1 :: b2 :: b3 :: rest =>
    b64Char (b1 / 4) :: b64Char (b1 % 4 * 16 + b2 / 16) ::
      b64Char (b2 % 16 * 4 + b3 / 64) :: b64Char (b3 % 64) ::
      base64URLEncodeChunks rest

/-- Go's `base64.URLEncoding.EncodeToString`. -/
def base64URLEncode (bs : List Nat) : String :=
  String.mk (base64URLEncodeChunks bs)

/-- The `zcapld.CapabilityInvocationHTTPHeader` constant naming the header. -/
def capabilityInvocationHTTPHeader : String := "capability-invocation"

/-- `setCapabilityHeader`: the header name/value pair set on the request;
the value is the structured `zcap` form with the action fixed to
`export-key`. -/
def setCapabilityHeader (capability : String) : String × String :=
  (capabilityInvocationHTTPHeader,
   "zcap capability=\"" ++ capability ++ "\",action=\"" ++ actionExportKey ++ "\"")

/-- The composition performed by `getPubKeyOfRecipient`: delegate, then
attach the header built from the base64url-encoded compressed capability. -/
def getPubKeyCapabilityHeader (c : Capability) (verificationMethod invoker newID created : String)
    (sig : List Nat) : Option (String × String) :=
  (delegateCapability c verificationMethod invoker newID created sig).map
    (fun compressed => setCapabilityHeader (base64URLEncode compressed))

/-! ## Parallel create-key aggregation

`makeParallelCreateKeyReqs` dispatches one goroutine per request; each
goroutine sends either its response status on `statusCh` or its error on
`errCh`.  The aggregator loop receives events one at a time until it has
one outcome per request, returning at once on the first error.  The model
below runs that loop over an explicit arrival schedule of outcomes; `none`
means the loop is still blocked waiting on a channel. -/

/-- One event received by the aggregator: a goroutine's response status or
its error. -/
inductive WorkerOutcome
  | status : String → WorkerOutcome
  | failure : String → WorkerOutcome
  deriving DecidableEq

/-- The `for respCount > 0 { select ... }` aggregation loop of
`makeParallelCreateKeyReqs`, run over the arrival order of outcomes.
Returns the collected statuses in arrival order, the first error received,
or `none` when the schedule has fewer events than outstanding units (the
loop would block). -/
def collectResponses : Nat → List WorkerOutcome → Option (Except String (List String))
  | 0, _ => some (Except.ok [])
  | _ + 1, [] => none
  | _ + 1, WorkerOutcome.failure e :: _ => some (Except.error e)
  | n + 1, WorkerOutcome.status s :: rest =>
    match collectResponses n rest with
    | none => none
    | some (Except.error e) => some (Except.error e)
    | some (Except.ok l) => some (Except.ok (s :: l))

/-! ## Metrics singleton (`pkg/metrics`)

Prometheus histograms are modelled as lists of recorded observations;
durations as naturals.  The `sync.Once`-guarded global is modelled as an
explicit process state threaded through `Get` calls — `sync.Once.Do`
linearizes concurrent callers, so any interleaving of `Get` calls runs as
some sequence of these steps. -/

/-- A prometheus histogram: the multiset of observations, newest first. -/
structure Histogram where
  observations : List Nat
  deriving DecidableEq

/-- `Observe` records one value. -/
def Histogram.observe (h : Histogram) (value : Nat) : Histogram :=
  { observations := value :: h.observations }

/-- A freshly built histogram (`prometheus.NewHistogram`). -/
def newHistogram : Histogram := { observations := [] }

/-- The fixed backend list of `newMetrics`. -/
def dbTypes : List String := ["CouchDB", "MongoDB", "EDV"]

/-- `newCryptoSignTime`. -/
def newCryptoSignTime : Histogram := newHistogram

/-- `newDBPutTime`: one histogram per backend type. -/
def newDBPutTime (dbTypes : List String) : List (String × Histogram) :=
  dbTypes.map (fun t => (t, newHistogram))

/-- `newDBGetTime`. -/
def newDBGetTime (dbTypes : List String) : List (String × Histogram) :=
  dbTypes.map (fun t => (t, newHistogram))

/-- `newDBGetTagsTime`. -/
def newDBGetTagsTime (dbTypes : List String) : List (String × Histogram) :=
  dbTypes.map (fun t => (t, newHistogram))

/-- `newDBGetBulkTime`. -/
def newDBGetBulkTime (dbTypes : List String) : List (String × Histogram) :=
  dbTypes.map (fun t => (t, newHistogram))

/-- `newDBQueryTime`. -/
def newDBQueryTime (dbTypes : List String) : List (String × Histogram) :=
  dbTypes.map (fun t => (t, newHistogram))

/-- `newDBDeleteTime`. -/
def newDBDeleteTime (dbTypes : List String) : List (String × Histogram) :=
  dbTypes.map (fun t => (t, newHistogram))

/-- `newDBBatchTime`. -/
def newDBBatchTime (dbTypes : List String) : List (String × Histogram) :=
  dbTypes.map (fun t => (t, newHistogram))

/-- `newKeyStoreResolveTime`. -/
def newKeyStoreResolveTime : Histogram := newHistogram

/-- `newKeyStoreGetKeyTime`. -/
def newKeyStoreGetKeyTime : Histogram := newHistogram

/-- The `Metrics` registry managed by the package. -/
structure Metrics where
  cryptoSignTime : Histogram
  dbPutTimes : List (String × Histogram)
  dbGetTimes : List (String × Histogram)
  dbGetTagsTimes : List (String × Histogram)
  dbGetBulkTimes : List (String × Histogram)
  dbQueryTimes : List (String × Histogram)
  dbDeleteTimes : List (String × Histogram)
  dbBatchTimes : List (String × Histogram)
  keyStoreResolveTime : Histogram
  keyStoreGetKeyTime : Histogram
  deriving DecidableEq

/-- `newMetrics`: build and register every histogram. -/
def newMetrics : Metrics :=
  { cryptoSignTime := newCryptoSignTime
    dbPutTimes := newDBPutTime dbTypes
    dbGetTimes := newDBGetTime dbTypes
    dbGetTagsTimes := newDBGetTagsTime dbTypes
    dbGetBulkTimes := newDBGetBulkTime dbTypes
    dbQueryTimes := newDBQueryTime dbTypes
    dbDeleteTimes := newDBDeleteTime dbTypes
    dbBatchTimes := newDBBatchTime dbTypes
    keyStoreResolveTime := newKeyStoreResolveTime
    keyStoreGetKeyTime := newKeyStoreGetKeyTime }

/-- Process-wide state behind `Get`: the `instance` global and, to count
construction/registration events, how many times `newMetrics` has run. -/
structure ProcessState where
  inst : Option Metrics
  constructions : Nat
  deriving DecidableEq

/-- State of a process that has not yet called `Get`. -/
def initialState : ProcessState := { inst := none, constructions := 0 }

/-- `Get`: run `newMetrics` under `createOnce.Do` when the instance is
absent, then return the stored instance. -/
def Get (st : ProcessState) : Metrics × ProcessState :=
  match st.inst with
  | some m => (m, st)
  | none => (newMetrics, { inst := some newMetrics, constructions := st.constructions + 1 })

/-- A sequence of `n` `Get` calls, collecting each call's result. -/
def runGets : Nat → ProcessState → List Metrics × ProcessState
  | 0, st => ([], st)
  | n + 1, st =>
    match Get st with
    | (m, st1) =>
      match runGets n st1 with
      | (ms, st2) => (m :: ms, st2)

/-- Observe into the histogram stored under a key of a per-backend map
(Go histograms are pointers, so `c.Observe` updates the map's entry). -/
def observeEntry (l : List (String × Histogram)) (k : String) (value : Nat) :
    List (String × Histogram) :=
  l.map (fun p => if p.1 = k then (p.1, p.2.observe value) else p)

/-- `DBPutTime`: observe only when the backend type is known. -/
def DBPutTime (m : Metrics) (dbType : String) (value : Nat) : Metrics :=
  match m.dbPutTimes.lookup dbType with
  | some _ => { m with dbPutTimes := observeEntry m.dbPutTimes dbType value }
  | none => m

/-- `DBGetTime`. -/
def DBGetTime (m : Metrics) (dbType : String) (value : Nat) : Metrics :=
  match m.dbGetTimes.lookup dbType with
  | some _ => { m with dbGetTimes := observeEntry m.dbGetTimes dbType value }
  | none => m

/-- `DBGetTagsTime`. -/
def DBGetTagsTime (m : Metrics) (dbType : String) (value : Nat) : Metrics :=
  match m.dbGetTagsTimes.lookup dbType with
  | some _ => { m with dbGetTagsTimes := observeEntry m.dbGetTagsTimes dbType value }
  | none => m

/-- `DBGetBulkTime`. -/
def DBGetBulkTime (m : Metrics) (dbType : String) (value : Nat) : Metrics :=
  match m.dbGetBulkTimes.lookup dbType with
  | some _ => { m with dbGetBulkTimes := observeEntry m.dbGetBulkTimes dbType value }
  | none => m

/-- `DBQueryTime`. -/
def DBQueryTime (m : Metrics) (dbType : String) (value : Nat) : Metrics :=
  match m.dbQueryTimes.lookup dbType with
  | some _ => { m with dbQueryTimes := observeEntry m.dbQueryTimes dbType value }
  | none => m

/-- `DBDeleteTime`. -/
def DBDeleteTime (m : Metrics) (dbType : String) (value : Nat) : Metrics :=
  match m.dbDeleteTimes.lookup dbType with
  | some _ => { m with dbDeleteTimes := observeEntry m.dbDeleteTimes dbType value }
  | none => m

/-- `DBBatchTime`. -/
def DBBatchTime (m : Metrics) (dbType : String) (value : Nat) : Metrics :=
  match m.dbBatchTimes.lookup dbType with
  | some _ => { m with dbBatchTimes := observeEntry m.dbBatchTimes dbType value }
  | none => m

/-- `CryptoSignTime` always observes (no per-backend lookup). -/
def CryptoSignTime (m : Metrics) (value : Nat) : Metrics :=
  { m with cryptoSignTime := m.cryptoSignTime.observe value }

/-- The keys of every per-backend map are exactly `dbTypes`; this holds of
`newMetrics` and is preserved by every recording operation. -/
def DBKeysValid (m : Metrics) : Prop :=
  m.dbPutTimes.map Prod.fst = dbTypes ∧
  m.dbGetTimes.map Prod.fst = dbTypes ∧
  m.dbGetTagsTimes.map Prod.fst = dbTypes ∧
  m.dbGetBulkTimes.map Prod.fst = dbTypes ∧
  m.dbQueryTimes.map Prod.fst = dbTypes ∧
  m.dbDeleteTimes.map Prod.fst = dbTypes ∧
  m.dbBatchTimes.map Prod.fst = dbTypes

/-! ## Concrete capabilities used as witnesses and counterexamples -/

/-- A root-style parent capability whose allowed actions do not include
`export-key`. -/
def sampleParent : Capability :=
  { id := "urn:zcap:root"
    invoker := "did:example:alice"
    parent := ""
    invocationTarget := { id := "https://kms.example.com/kms/keystores/1", type := "urn:kms:keystore" }
    allowedActions := ["read", "write"]
    proof := [{ verificationMethod := "did:example:alice#key1"
                created := "2021-01-01T00:00:00Z"
                proofPurpose := "capabilityDelegation"
                capabilityChain := some ["urn:zcap:origin"]
                signatureValue := [1, 2, 3] }] }

/-- The capability `delegateCapability` mints from `sampleParent` for
invoker bob under fresh id `urn:zcap:new`. -/
def sampleDelegated : Capability :=
  { id := "urn:zcap:new"
    invoker := "did:example:bob"
    parent := "urn:zcap:root"
    invocationTarget := sampleParent.invocationTarget
    allowedActions := [actionExportKey]
    proof := [{ verificationMethod := "did:example:alice#key1"
                created := "2021-02-02T00:00:00Z"
                proofPurpose := "capabilityDelegation"
                capabilityChain := some ["urn:zcap:origin", "urn:zcap:root"]
                signatureValue := [7, 7] }] }

/-- A parent capability that does include `export-key` among its actions. -/
def exportParent : Capability :=
  { sampleParent with allowedActions := ["read", actionExportKey] }

/-- The capability delegated from `exportParent` to carol. -/
def exportDelegated : Capability :=
  { id := "urn:zcap:d2"
    invoker := "did:example:carol"
    parent := "urn:zcap:root"
    invocationTarget := sampleParent.invocationTarget
    allowedActions := [actionExportKey]
    proof := [{ verificationMethod := "did:example:alice#key2"
                created := "2021-03-03T00:00:00Z"
                proofPurpose := "capabilityDelegation"
                capabilityChain := some ["urn:zcap:origin", "urn:zcap:root"]
                signatureValue := [4] }] }

/-- A parent capability whose embedded chain already contains its own id. -/
def cyclicParent : Capability :=
  { id := "urn:zcap:p"
    invoker := "did:example:alice"
    parent := ""
    invocationTarget := { id := "https://kms.example.com/kms/keystores/2", type := "urn:kms:keystore" }
    allowedActions := [actionExportKey]
    proof := [{ verificationMethod := "did:example:alice#key1"
                created := "2021-01-01T00:00:00Z"
                proofPurpose := "capabilityDelegation"
                capabilityChain := some ["urn:zcap:p"]
                signatureValue := [5] }] }

/-! ## Decoder/encoder round-trip lemmas -/

/-- Rebuilding a string from its character list is the identity. -/
theorem stringMk_toList (s : String) : String.mk s.toList = s := rfl

/-- Decoding a string off its encoding returns it with the tail intact. -/
theorem decodeString_encodeString (s : String) (r : List Nat) :
    decodeString (encodeString s ++ r) = some (s, r) := by
  have hlen : (s.toList.map Char.toNat).length = s.toList.length := List.length_map _ _
  simp only [encodeString, List.cons_append, decodeString]
  rw [if_pos (by simp)]
  rw [List.take_append_of_le_length (by simp), List.take_of_length_le (by simp)]
  rw [List.drop_append_of_le_length (by simp), List.drop_of_length_le (by simp)]
  simp [List.map_map, Function.comp_def, Char.ofNat_toNat]

/-- Decoding a counted string list off its encoding. -/
theorem decodeStrings_encodeStrings (ss : List String) (r : List Nat) :
    decodeStrings ss.length (encodeStrings ss ++ r) = some (ss, r) := by
  induction ss generalizing r with
  | nil => rfl
  | cons s t ih =>
    simp only [encodeStrings, List.length_cons, List.append_assoc, decodeStrings,
      decodeString_encodeString, ih]

/-- Decoding a count-prefixed string list off its encoding. -/
theorem decodeStringList_encodeStringList (ss : List String) (r : List Nat) :
    decodeStringList (encodeStringList ss ++ r) = some (ss, r) := by
  simp only [encodeStringList, List.cons_append, decodeStringList,
    decodeStrings_encodeStrings]

/-- Decoding raw bytes off their length-prefixed encoding. -/
theorem decodeNatList_encodeNatList (l r : List Nat) :
    decodeNatList (encodeNatList l ++ r) = some (l, r) := by
  simp only [encodeNatList, List.cons_append, decodeNatList]
  rw [if_pos (by simp)]
  rw [List.take_append_of_le_length (by simp), List.take_of_length_le (by simp)]
  rw [List.drop_append_of_le_length (by simp), List.drop_of_length_le (by simp)]
  simp

/-- Decoding an optional chain off its tagged encoding. -/
theorem decodeChain_encodeChain (o : Option (List String)) (r : List Nat) :
    decodeChain (encodeChain o ++ r) = some (o, r) := by
  cases o with
  | none => rfl
  | some ss =>
    simp only [encodeChain, List.cons_append, decodeChain,
      decodeStringList_encodeStringList]

/-- Decoding one proof entry off its encoding. -/
theorem decodeProof_encodeProof (p : Proof) (r : List Nat) :
    decodeProof (encodeProof p ++ r) = some (p, r) := by
  obtain ⟨vm, cr, pp, ch, sv⟩ := p
  simp only [encodeProof, List.append_assoc, decodeProof, decodeString_encodeString,
    decodeChain_encodeChain, decodeNatList_encodeNatList]

/-- Decoding a counted proof list off its encoding. -/
theorem decodeProofs_encodeProofs (ps : List Proof) (r : List Nat) :
    decodeProofs ps.length (encodeProofs ps ++ r) = some (ps, r) := by
  induction ps generalizing r with
  | nil => rfl
  | cons p t ih =>
    simp only [encodeProofs, List.length_cons, List.append_assoc, decodeProofs,
      decodeProof_encodeProof, ih]

/-- Decoding a counted proof list off exactly its encoding. -/
theorem decodeProofs_encodeProofs_nil (ps : List Proof) :
    decodeProofs ps.length (encodeProofs ps) = some (ps, []) := by
  simpa using decodeProofs_encodeProofs ps []

/-! ## Claim theorems -/

/-- Claim C3 (confirmed): for every capability `c`,
`DecompressZCAP (CompressZCAP c)` is field-for-field equal to `c` for
every field of the document — id, invoker, parent, invocationTarget,
allowedActions and the proof entries, whose signature bytes are carried
verbatim. -/
theorem compress_roundtrip (c : Capability) :
    DecompressZCAP (CompressZCAP c) = some c := by
  obtain ⟨i, inv, par, ⟨tid, tty⟩, acts, ps⟩ := c
  simp only [CompressZCAP, DecompressZCAP, List.append_assoc,
    decodeString_encodeString, decodeStringList_encodeStringList,
    decodeProofs_encodeProofs_nil]

/-- Claim C1 counterexample: delegating `sampleParent`, whose allowed
actions are `read` and `write`, succeeds and produces a capability whose
allowed actions are exactly `export-key` — not a subset of the parent's —
and no `DelegationError` occurs. -/
theorem delegate_attenuation_counterexample :
    (delegatedCapability sampleParent "did:example:alice#key1" "did:example:bob"
        "urn:zcap:new2" "2021-02-02T00:00:00Z" [1]).map Capability.allowedActions
      = some [actionExportKey]
    ∧ actionExportKey ∉ sampleParent.allowedActions :=
  ⟨rfl, by decide⟩

/-- Claim C1 (amended): the delegation helper fixes the delegated action
set to `export-key` and performs no subset check, so attenuation
`D.allowedActions ⊆ P.allowedActions` holds exactly when `export-key` is
among the parent's allowed actions; no delegation attempt fails with a
`DelegationError` over actions. -/
theorem delegate_attenuation (c : Capability) (vm inv nid cr : String) (sig : List Nat)
    (d : Capability) (hd : delegatedCapability c vm inv nid cr sig = some d)
    (h : actionExportKey ∈ c.allowedActions) :
    d.allowedActions ⊆ c.allowedActions := by
  unfold delegatedCapability at hd
  split at hd
  · exact absurd hd (by simp)
  · simp only [Option.some.injEq] at hd
    subst hd
    intro a ha
    simp only [List.mem_singleton] at ha
    simpa [ha] using h

/-- Claim C1 witness: the amended attenuation theorem at `exportParent`. -/
theorem delegate_attenuation_witness :
    exportDelegated.allowedActions ⊆ exportParent.allowedActions :=
  delegate_attenuation exportParent "did:example:alice#key2" "did:example:carol"
    "urn:zcap:d2" "2021-03-03T00:00:00Z" [4] exportDelegated rfl (by decide)

/-- Claim C2 counterexample: delegating `cyclicParent`, whose embedded
chain already contains its own id, succeeds and yields a chain in which
the identifier `urn:zcap:p` appears twice, refuting the unconditional
no-repeat part of the claim. -/
theorem delegate_chain_nodup_counterexample :
    (delegatedCapability cyclicParent "did:example:alice#key1" "did:example:bob"
        "urn:zcap:q" "2021-04-04T00:00:00Z" [6]).map capabilityChainOf
      = some ["urn:zcap:p", "urn:zcap:p"]
    ∧ ¬ (["urn:zcap:p", "urn:zcap:p"] : List String).Nodup :=
  ⟨rfl, by decide⟩

/-- Claim C2 (amended): every delegation of a parent `P` producing `D`
gives `D.capabilityChain = P.capabilityChain ++ [P.id]`, so the chain
grows by exactly one per hop; the resulting chain repeats no identifier
provided the parent's chain was duplicate-free and did not already
contain `P.id`. -/
theorem delegate_chain_growth (c : Capability) (vm inv nid cr : String) (sig : List Nat)
    (d : Capability) (hd : delegatedCapability c vm inv nid cr sig = some d) :
    capabilityChainOf d = capabilityChainOf c ++ [c.id]
    ∧ (capabilityChainOf d).length = (capabilityChainOf c).length + 1
    ∧ ((capabilityChainOf c ++ [c.id]).Nodup → (capabilityChainOf d).Nodup) := by
  unfold delegatedCapability at hd
  split at hd
  · exact absurd hd (by simp)
  · rename_i p0 tl heq
    simp only [Option.some.injEq] at hd
    subst hd
    refine ⟨?_, ?_, ?_⟩ <;>
      simp [capabilityChainOf, heq]

/-- Claim C2 witness: the chain-growth theorem at `sampleParent`. -/
theorem delegate_chain_growth_witness :
    capabilityChainOf sampleDelegated = capabilityChainOf sampleParent ++ [sampleParent.id]
    ∧ (capabilityChainOf sampleDelegated).length = (capabilityChainOf sampleParent).length + 1
    ∧ ((capabilityChainOf sampleParent ++ [sampleParent.id]).Nodup →
        (capabilityChainOf sampleDelegated).Nodup) :=
  delegate_chain_growth sampleParent "did:example:alice#key1" "did:example:bob"
    "urn:zcap:new" "2021-02-02T00:00:00Z" [7, 7] sampleDelegated rfl

/-- Claim C4 (confirmed): delegation copies the parent's invocation target
verbatim — both resource id and type — and the helper offers no way to
supply a different target. -/
theorem delegate_target_immutable (c : Capability) (vm inv nid cr : String) (sig : List Nat)
    (d : Capability) (hd : delegatedCapability c vm inv nid cr sig = some d) :
    d.invocationTarget = c.invocationTarget := by
  unfold delegatedCapability at hd
  split at hd
  · exact absurd hd (by simp)
  · simp only [Option.some.injEq] at hd
    subst hd
    rfl

/-- Claim C4 witness: target immutability at `sampleParent`. -/
theorem delegate_target_immutable_witness :
    sampleDelegated.invocationTarget = sampleParent.invocationTarget :=
  delegate_target_immutable sampleParent "did:example:alice#key1" "did:example:bob"
    "urn:zcap:new" "2021-02-02T00:00:00Z" [7, 7] sampleDelegated rfl

/-- Claim C5 counterexample: `cyclicParent`'s chain contains its own id,
yet delegating it succeeds — no `DelegationError`, hence no defensive
cycle check. -/
theorem delegate_cycle_check_counterexample :
    cyclicParent.id ∈ capabilityChainOf cyclicParent
    ∧ (delegateCapability cyclicParent "did:example:alice#key1" "did:example:dan"
        "urn:zcap:r" "2021-05-05T00:00:00Z" [8]).isSome = true :=
  ⟨by decide, rfl⟩

/-- Claim C5 (amended): the helper performs no cycle check: for every
parent with at least one proof entry whose chain already contains the
parent's id, delegation still succeeds, producing the appended chain,
which then repeats an identifier. -/
theorem delegate_no_cycle_check (c : Capability) (vm inv nid cr : String) (sig : List Nat)
    (hp : c.proof ≠ []) (hcyc : c.id ∈ capabilityChainOf c) :
    (delegatedCapability c vm inv nid cr sig).map capabilityChainOf
      = some (capabilityChainOf c ++ [c.id])
    ∧ ¬ (capabilityChainOf c ++ [c.id]).Nodup := by
  constructor
  · match hpf : c.proof with
    | [] => exact absurd hpf hp
    | p0 :: tl =>
      simp [delegatedCapability, hpf, capabilityChainOf]
  · intro hnd
    rw [List.nodup_append] at hnd
    exact hnd.2.2 hcyc (by simp)

/-- Claim C5 witness: the no-cycle-check theorem at `cyclicParent`. -/
theorem delegate_no_cycle_check_witness :
    (delegatedCapability cyclicParent "did:example:alice#key1" "did:example:erin"
        "urn:zcap:s" "2021-06-06T00:00:00Z" [9]).map capabilityChainOf
      = some (capabilityChainOf cyclicParent ++ [cyclicParent.id])
    ∧ ¬ (capabilityChainOf cyclicParent ++ [cyclicParent.id]).Nodup :=
  delegate_no_cycle_check cyclicParent "did:example:alice#key1" "did:example:erin"
    "urn:zcap:s" "2021-06-06T00:00:00Z" [9] (by decide) (by decide)

/-- Claim C8 (confirmed): every capability minted by the delegation helper
has allowed actions exactly `[export-key]`, whatever the parent's actions
or the other inputs, and the capability-invocation header it is paired
with always declares the action `export-key`. -/
theorem delegate_fixed_export_action (c : Capability) (vm inv nid cr capStr : String)
    (sig : List Nat) (d : Capability)
    (hd : delegatedCapability c vm inv nid cr sig = some d) :
    d.allowedActions = [actionExportKey]
    ∧ (setCapabilityHeader capStr).2
      = "zcap capability=\"" ++ capStr ++ "\",action=\"" ++ actionExportKey ++ "\"" := by
  unfold delegatedCapability at hd
  split at hd
  · exact absurd hd (by simp)
  · simp only [Option.some.injEq] at hd
    subst hd
    exact ⟨rfl, rfl⟩

/-- Claim C8 witness: the fixed-action theorem at `sampleParent`. -/
theorem delegate_fixed_export_action_witness :
    sampleDelegated.allowedActions = [actionExportKey]
    ∧ (setCapabilityHeader "CAP").2
      = "zcap capability=\"" ++ "CAP" ++ "\",action=\"" ++ actionExportKey ++ "\"" :=
  delegate_fixed_export_action sampleParent "did:example:alice#key1" "did:example:bob"
    "urn:zcap:new" "2021-02-02T00:00:00Z" "CAP" [7, 7] sampleDelegated rfl

/-- Claim C6 (confirmed): whenever delegation yields compressed capability
bytes `cs`, the header attached to the request is exactly
`zcap capability="<base64url cs>",action="export-key"` under the
capability-invocation header name — the capability field is the base64
encoding of the very compressed capability being exercised. -/
theorem capability_header_shape (c : Capability) (vm inv nid cr : String) (sig cs : List Nat)
    (h : delegateCapability c vm inv nid cr sig = some cs) :
    getPubKeyCapabilityHeader c vm inv nid cr sig =
      some (capabilityInvocationHTTPHeader,
        "zcap capability=\"" ++ base64URLEncode cs ++ "\",action=\"" ++ actionExportKey ++ "\"") := by
  simp [getPubKeyCapabilityHeader, h, setCapabilityHeader]

/-- Claim C6 witness: the header-shape theorem at `sampleParent`, whose
delegation compresses to `CompressZCAP sampleDelegated`. -/
theorem capability_header_shape_witness :
    getPubKeyCapabilityHeader sampleParent "did:example:alice#key1" "did:example:bob"
        "urn:zcap:new" "2021-02-02T00:00:00Z" [7, 7] =
      some (capabilityInvocationHTTPHeader,
        "zcap capability=\"" ++ base64URLEncode (CompressZCAP sampleDelegated) ++
          "\",action=\"" ++ actionExportKey ++ "\"") :=
  capability_header_shape sampleParent "did:example:alice#key1" "did:example:bob"
    "urn:zcap:new" "2021-02-02T00:00:00Z" [7, 7] (CompressZCAP sampleDelegated) rfl

/-- Every all-success schedule of exactly the outstanding unit count is
consumed in full and collected in arrival order. -/
theorem collectResponses_all_ok (ss : List String) :
    collectResponses ss.length (ss.map WorkerOutcome.status) = some (Except.ok ss) := by
  induction ss with
  | nil => rfl
  | cons s t ih => simp [collectResponses, ih]

/-- The first error in the schedule aborts the loop at once, whatever
outcomes follow it. -/
theorem collectResponses_first_error (pre : List String) (n : Nat) (e : String)
    (rest : List WorkerOutcome) (hlt : pre.length < n) :
    collectResponses n (pre.map WorkerOutcome.status ++ WorkerOutcome.failure e :: rest)
      = some (Except.error e) := by
  induction pre generalizing n with
  | nil =>
    match n, hlt with
    | m + 1, _ => rfl
  | cons s t ih =>
    match n, hlt with
    | m + 1, hlt =>
      have : t.length < m := by simpa using hlt
      simp [collectResponses, ih m this]

/-- With fewer arrived outcomes than outstanding units and no error, the
loop stays blocked. -/
theorem collectResponses_blocks (ss : List String) (n : Nat) (hlt : ss.length < n) :
    collectResponses n (ss.map WorkerOutcome.status) = none := by
  induction ss generalizing n with
  | nil =>
    match n, hlt with
    | m + 1, _ => rfl
  | cons s t ih =>
    match n, hlt with
    | m + 1, hlt =>
      have : t.length < m := by simpa using hlt
      simp [collectResponses, ih m this]

/-- Claim C7 (confirmed): over any arrival schedule, the aggregator of
`makeParallelCreateKeyReqs` (i) completes only after receiving exactly one
outcome per dispatched unit, collecting the statuses in arrival order,
(ii) propagates the first error immediately, ignoring everything behind
it, (iii) blocks while outcomes are outstanding, and (iv) returns results
in arrival order, which need not match dispatch order. -/
theorem parallel_aggregator_behavior (ss pre : List String) (n : Nat) (e : String)
    (rest : List WorkerOutcome) (hlt : pre.length < n) :
    collectResponses ss.length (ss.map WorkerOutcome.status) = some (Except.ok ss)
    ∧ collectResponses n (pre.map WorkerOutcome.status ++ WorkerOutcome.failure e :: rest)
        = some (Except.error e)
    ∧ collectResponses (pre.length + 1) (pre.map WorkerOutcome.status) = none
    ∧ collectResponses 2 [WorkerOutcome.status "b", WorkerOutcome.status "a"]
        = some (Except.ok ["b", "a"]) :=
  ⟨collectResponses_all_ok ss,
   collectResponses_first_error pre n e rest hlt,
   collectResponses_blocks pre (pre.length + 1) (Nat.lt_succ_self _),
   rfl⟩

/-- Claim C7 witness: the aggregator theorem at a two-unit schedule with a
one-status prefix before the error. -/
theorem parallel_aggregator_witness :
    collectResponses (["a", "b"] : List String).length
        ((["a", "b"] : List String).map WorkerOutcome.status) = some (Except.ok ["a", "b"])
    ∧ collectResponses 2
        ((["x"] : List String).map WorkerOutcome.status ++ WorkerOutcome.failure "boom" :: [])
        = some (Except.error "boom")
    ∧ collectResponses ((["x"] : List String).length + 1)
        ((["x"] : List String).map WorkerOutcome.status) = none
    ∧ collectResponses 2 [WorkerOutcome.status "b", WorkerOutcome.status "a"]
        = some (Except.ok ["b", "a"]) :=
  parallel_aggregator_behavior ["a", "b"] ["x"] 2 "boom" [] (by decide)

/-- After the instance exists, further `Get` calls neither construct nor
register anything and always return the stored instance. -/
theorem runGets_saturated (n : Nat) (k : Nat) :
    runGets n { inst := some newMetrics, constructions := k }
      = (List.replicate n newMetrics, { inst := some newMetrics, constructions := k }) := by
  induction n with
  | zero => rfl
  | succ m ih => simp [runGets, Get, ih, List.replicate_succ]

/-- Claim C9 (confirmed): starting from a fresh process, any positive
number of `Get` calls returns the `newMetrics` instance every time, the
registry is constructed (and its histograms registered) exactly once, and
the stored instance is that same one. -/
theorem metrics_get_singleton (n : Nat) (h : 1 ≤ n) :
    (runGets n initialState).1 = List.replicate n newMetrics
    ∧ (runGets n initialState).2.constructions = 1
    ∧ (runGets n initialState).2.inst = some newMetrics := by
  match n, h with
  | m + 1, _ =>
    have hstep : runGets (m + 1) initialState
        = (newMetrics :: List.replicate m newMetrics,
           { inst := some newMetrics, constructions := 1 }) := by
      simp [runGets, Get, initialState, runGets_saturated]
    refine ⟨?_, ?_, ?_⟩ <;> simp [hstep, List.replicate_succ]

/-- Claim C9 witness: the singleton theorem at three `Get` calls. -/
theorem metrics_get_singleton_witness :
    (runGets 3 initialState).1 = List.replicate 3 newMetrics
    ∧ (runGets 3 initialState).2.constructions = 1
    ∧ (runGets 3 initialState).2.inst = some newMetrics :=
  metrics_get_singleton 3 (by decide)

/-- A key absent from an association list's key column looks up to `none`. -/
theorem lookup_eq_none_of_not_mem (l : List (String × Histogram)) (k : String)
    (h : k ∉ l.map Prod.fst) : l.lookup k = none := by
  induction l with
  | nil => rfl
  | cons p t ih =>
    obtain ⟨a, b⟩ := p
    simp only [List.map_cons, List.mem_cons, not_or] at h
    have hne : (k == a) = false := beq_eq_false_iff_ne.mpr h.1
    simp only [List.lookup, hne]
    exact ih h.2

/-- Claim C10 (confirmed): for any backend name outside the fixed set
`CouchDB`/`MongoDB`/`EDV`, every per-backend recording operation returns
the metrics unchanged — no histogram is observed, and being a total
function it neither errors nor panics. -/
theorem db_metrics_unknown_type_noop (m : Metrics) (dbType : String) (value : Nat)
    (hkeys : DBKeysValid m) (h : dbType ∉ dbTypes) :
    DBPutTime m dbType value = m
    ∧ DBGetTime m dbType value = m
    ∧ DBGetTagsTime m dbType value = m
    ∧ DBGetBulkTime m dbType value = m
    ∧ DBQueryTime m dbType value = m
    ∧ DBDeleteTime m dbType value = m
    ∧ DBBatchTime m dbType value = m := by
  obtain ⟨h1, h2, h3, h4, h5, h6, h7⟩ := hkeys
  refine ⟨?_, ?_, ?_, ?_, ?_, ?_, ?_⟩
  · simp [DBPutTime, lookup_eq_none_of_not_mem _ _ (h1 ▸ h)]
  · simp [DBGetTime, lookup_eq_none_of_not_mem _ _ (h2 ▸ h)]
  · simp [DBGetTagsTime, lookup_eq_none_of_not_mem _ _ (h3 ▸ h)]
  · simp [DBGetBulkTime, lookup_eq_none_of_not_mem _ _ (h4 ▸ h)]
  · simp [DBQueryTime, lookup_eq_none_of_not_mem _ _ (h5 ▸ h)]
  · simp [DBDeleteTime, lookup_eq_none_of_not_mem _ _ (h6 ▸ h)]
  · simp [DBBatchTime, lookup_eq_none_of_not_mem _ _ (h7 ▸ h)]

/-- Claim C10 witness: the no-op theorem at `newMetrics` with the unknown
backend name `LevelDB`. -/
theorem db_metrics_unknown_type_noop_witness :
    DBPutTime newMetrics "LevelDB" 5 = newMetrics
    ∧ DBGetTime newMetrics "LevelDB" 5 = newMetrics
    ∧ DBGetTagsTime newMetrics "LevelDB" 5 = newMetrics
    ∧ DBGetBulkTime newMetrics "LevelDB" 5 = newMetrics
    ∧ DBQueryTime newMetrics "LevelDB" 5 = newMetrics
    ∧ DBDeleteTime newMetrics "LevelDB" 5 = newMetrics
    ∧ DBBatchTime newMetrics "LevelDB" 5 = newMetrics :=
  db_metrics_unknown_type_noop newMetrics "LevelDB" 5
    ⟨rfl, rfl, rfl, rfl, rfl, rfl, rfl⟩ (by decide)




